import Mathlib

/-! Shallow embedding of the evalml AutoML search orchestration engine.
The orchestrator implementation (evalml/automl/automl_search.py and the
engine/tuner modules it re-exports) is not present in the source tree;
the definitions below are modelled from the specification document,
with the repository's own automl tests pinning the observable behavior.
Scores are rationals; NaN is an explicit constructor of `SVal`;
exceptions are `Except String` values carrying the message. -/

/-- Modelled from the spec: the three problem categories handled by the
search orchestrator (missing module evalml/problem_types). -/
inductive ProblemType
  | binary
  | multiclass
  | regression
  deriving DecidableEq, Repr

/-- A score value: a number, or not-a-number (recorded for failed
fits/scorings). -/
inductive SVal
  | nan
  | num (q : ℚ)
  deriving DecidableEq, Repr

/-- A hyperparameter configuration: component name to parameter name to
value. -/
abbrev Params := List (String × List (String × ℚ))

/-- Modelled from the spec: a candidate pipeline, identified by its class
name and its hyperparameter configuration (missing module
evalml/pipelines/pipeline_base.py). -/
structure Pipeline where
  className : String
  parameters : Params
  deriving DecidableEq, Repr

/-- One train/validation fold of a data-split plan, carrying the row
counts of the two partitions. -/
structure Fold where
  nTrain : Nat
  nTest : Nat
  deriving DecidableEq, Repr

/-- Modelled from the spec: the immutable search configuration held by the
orchestrator (missing module evalml/automl/automl_search.py). `gib` is the
primary objective's greater_is_better flag. -/
structure Config where
  problemType : ProblemType
  primaryName : String
  gib : Bool
  additionalObjectives : List String
  maxTime : Option ℚ
  maxPipelines : Option Nat
  patience : Option Nat
  tolerance : ℚ
  optimizeThresholds : Bool

/-- The external collaborators (pipeline fit/score, objective scoring,
threshold optimizer, wall-clock durations), out of scope per the spec,
given as an oracle. An `Except.error` models a raised exception with its
message. -/
structure Oracle where
  fitResult : Pipeline → Fold → Except String Unit
  primaryScore : Pipeline → Fold → Except String ℚ
  addScore : Pipeline → Fold → String → Except String ℚ
  optThreshold : Pipeline → Fold → ℚ
  trainTime : Pipeline → ℚ

/-- Modelled from the spec: the per-fold CV data record of an Evaluation
Result (missing module evalml/automl/automl_search.py): all raw
per-objective scores including the primary, the row counts, and the
optional binary-decision threshold. -/
structure CVData where
  all_objective_scores : List (String × SVal)
  score : SVal
  binary_classification_threshold : Option ℚ
  deriving DecidableEq, Repr

/-- The training/testing row-count entries recorded in every fold's
objective-score map regardless of outcome. -/
def rowCountEntries (f : Fold) : List (String × SVal) :=
  [("# Training", SVal.num f.nTrain), ("# Testing", SVal.num f.nTest)]

/-- Scoring one additional (non-primary) objective: an exception is caught
at objective granularity and recorded as NaN, under either error policy
(pinned by test_objective_score_raises). -/
def scoreAdditional (oracle : Oracle) (p : Pipeline) (f : Fold) (objName : String) : SVal :=
  match oracle.addScore p f objName with
  | .ok q => SVal.num q
  | .error _ => SVal.nan

/-- The binary-decision threshold recorded for a successfully evaluated
fold: for binary problems a number is always recorded (the optimizer's
output when threshold optimization is enabled, the default 1/2 otherwise,
as pinned by test_search_results); for non-binary problems it is null. -/
def thresholdFor (cfg : Config) (oracle : Oracle) (p : Pipeline) (f : Fold) : Option ℚ :=
  if cfg.problemType = ProblemType.binary then
    some (if cfg.optimizeThresholds then oracle.optThreshold p f else 1/2)
  else none

/-- Modelled from the spec: one fold of the Evaluation Engine's
cross-validated fit+score cycle (missing module evalml/automl/engine).
A fit failure or a primary-objective scoring failure is an error of the
whole fold; additional-objective failures are contained per objective. -/
def evaluateFold (cfg : Config) (oracle : Oracle) (p : Pipeline) (f : Fold) :
    Except String CVData :=
  match oracle.fitResult p f with
  | .error e => .error e
  | .ok _ =>
    match oracle.primaryScore p f with
    | .error e => .error e
    | .ok q =>
      .ok { all_objective_scores :=
              (cfg.primaryName, SVal.num q)
                :: cfg.additionalObjectives.map (fun o => (o, scoreAdditional oracle p f o))
                ++ rowCountEntries f
            score := SVal.num q
            binary_classification_threshold := thresholdFor cfg oracle p f }

/-- The record written for a fold whose evaluation raised, under the
contained error policy: every objective score is NaN except the row
counts, which stay the true partition sizes; no threshold is recorded. -/
def nanCVData (cfg : Config) (f : Fold) : CVData :=
  { all_objective_scores :=
      (cfg.primaryName, SVal.nan)
        :: cfg.additionalObjectives.map (fun o => (o, SVal.nan))
        ++ rowCountEntries f
    score := SVal.nan
    binary_classification_threshold := none }

/-- The record written for a successfully evaluated fold whose primary
score is `q`. -/
def okCVData (cfg : Config) (oracle : Oracle) (p : Pipeline) (f : Fold) (q : ℚ) : CVData :=
  { all_objective_scores :=
      (cfg.primaryName, SVal.num q)
        :: cfg.additionalObjectives.map (fun o => (o, scoreAdditional oracle p f o))
        ++ rowCountEntries f
    score := SVal.num q
    binary_classification_threshold := thresholdFor cfg oracle p f }

/-- Modelled from the spec: the Evaluation Engine's per-candidate loop over
the split plan (missing module evalml/automl/engine). Under the strict
policy (`raiseErrors = true`) a fold failure propagates; under the
contained policy it is downgraded to a NaN record and the loop continues. -/
def evaluatePipeline (cfg : Config) (oracle : Oracle) (raiseErrors : Bool) (p : Pipeline) :
    List Fold → Except String (List CVData)
  | [] => .ok []
  | f :: rest =>
    match evaluateFold cfg oracle p f with
    | .ok cv =>
      match evaluatePipeline cfg oracle raiseErrors p rest with
      | .ok cvs => .ok (cv :: cvs)
      | .error e => .error e
    | .error e =>
      if raiseErrors then .error e
      else
        match evaluatePipeline cfg oracle raiseErrors p rest with
        | .ok cvs => .ok (nanCVData cfg f :: cvs)
        | .error e2 => .error e2

/-- Sum of a score list when every entry is numeric; `none` if any NaN. -/
def sumNums : List SVal → Option ℚ
  | [] => some 0
  | SVal.nan :: _ => none
  | SVal.num q :: rest => (sumNums rest).map (fun s => q + s)

/-- The aggregate score of a candidate: the mean of the per-fold primary
scores, NaN if any fold's score is NaN (or there are no folds). -/
def aggregateScore (l : List SVal) : SVal :=
  match l, sumNums l with
  | [], _ => SVal.nan
  | _, none => SVal.nan
  | _, some s => SVal.num (s / l.length)

/-- High-variance flag: coefficient of variation of the per-fold scores
above the fixed cutoff 1/5, stated squared to stay in the rationals. -/
def highVarianceCV (l : List SVal) : Bool :=
  match sumNums l with
  | none => false
  | some s =>
    if l.length = 0 then false
    else
      let n : ℚ := l.length
      let mean := s / n
      let var := ((l.map fun v => match v with
        | SVal.num q => (q - mean) ^ 2
        | SVal.nan => 0).sum) / n
      decide (mean ^ 2 * (1 / 25) < var)

/-- Modelled from the spec: the fixed large-dataset row threshold above
which a single holdout split replaces K-fold CV (missing module
evalml/automl/automl_search.py; the tests exercise it at 101000 rows). -/
def largeDataThreshold : Nat := 100000

/-- The default 3-fold split plan: fold i holds out rows/3 rows (one more
for the first rows % 3 folds) and trains on the rest. -/
def kfold3 (rows : Nat) : List Fold :=
  (List.range 3).map fun i =>
    let t := rows / 3 + (if i < rows % 3 then 1 else 0)
    { nTrain := rows - t, nTest := t }

/-- The single held-out train/validation split used for large datasets:
one quarter of the rows held out. -/
def holdoutSplit (rows : Nat) : List Fold :=
  [{ nTrain := rows - rows / 4, nTest := rows / 4 }]

/-- Modelled from the spec: the data-splitting strategy chosen by `run`
when none is configured (missing evalml/automl/utils.py
make_data_splitter): K-fold by default, a single holdout split when the
row count exceeds the large-dataset threshold, for every problem
category. -/
def makeSplitPlan (rows : Nat) : List Fold :=
  if largeDataThreshold < rows then holdoutSplit rows else kfold3 rows

/-- Modelled from the spec: one Evaluation Result held by the Results
Store (missing module evalml/automl/automl_search.py). -/
structure PipelineResult where
  id : Nat
  pipeline_name : String
  pipeline_class : String
  pipeline_summary : String
  parameters : Params
  score : SVal
  high_variance_cv : Bool
  training_time : ℚ
  cv_data : List CVData
  deriving DecidableEq, Repr

/-- Build the Evaluation Result recorded for a candidate from its per-fold
CV data. -/
def mkResult (oracle : Oracle) (p : Pipeline) (rid : Nat) (cvs : List CVData) : PipelineResult :=
  { id := rid
    pipeline_name := p.className
    pipeline_class := p.className
    pipeline_summary := p.className
    parameters := p.parameters
    score := aggregateScore (cvs.map (fun cv => cv.score))
    high_variance_cv := highVarianceCV (cvs.map (fun cv => cv.score))
    training_time := oracle.trainTime p
    cv_data := cvs }

/-- Modelled from the spec: the orchestrator's mutable state, the
append-only Results Store and Search Order (missing module
evalml/automl/automl_search.py). -/
structure AutoMLState where
  results : List PipelineResult
  search_order : List Nat
  has_searched : Bool
  deriving DecidableEq, Repr

/-- The state of a freshly constructed orchestrator: empty store, no
search run yet. -/
def emptyState : AutoMLState :=
  { results := [], search_order := [], has_searched := false }

/-- Append one Evaluation Result: the id goes to the Search Order and the
record to the Results Store. -/
def recordResult (st : AutoMLState) (res : PipelineResult) : AutoMLState :=
  { results := st.results ++ [res]
    search_order := st.search_order ++ [res.id]
    has_searched := true }

/-- Reconstruct a pipeline (class + parameters) from a recorded result,
`none` when the id is absent. -/
def getPipeline (st : AutoMLState) (rid : Nat) : Option Pipeline :=
  match st.results.find? (fun r => r.id == rid) with
  | some r => some { className := r.pipeline_class, parameters := r.parameters }
  | none => none

/-- Whether score `a` is at least as good as score `b` under the primary
objective's direction; NaN ranks strictly after every number. -/
def svalBE (gib : Bool) : SVal → SVal → Bool
  | SVal.nan, SVal.nan => true
  | SVal.nan, SVal.num _ => false
  | SVal.num _, SVal.nan => true
  | SVal.num a, SVal.num b => if gib then decide (b ≤ a) else decide (a ≤ b)

/-- The better of two scores. -/
def betterSVal (gib : Bool) (a b : SVal) : SVal :=
  if svalBE gib a b then a else b

/-- Best score of a list (NaN when empty). -/
def bestScore (gib : Bool) : List SVal → SVal
  | [] => SVal.nan
  | s :: rest => betterSVal gib s (bestScore gib rest)

/-- Signed improvement of `curr` over `old` in the objective's direction;
zero when either is NaN. -/
def improveBy (gib : Bool) : SVal → SVal → ℚ
  | SVal.num a, SVal.num b => if gib then b - a else a - b
  | _, _ => 0

/-- Modelled from the spec: the Stopping Controller's plateau rule
(missing module evalml/automl/automl_search.py): with `patience` set and
more than `patience` scores observed, halt when the best score improved by
less than `tolerance` over the last `patience` candidates. -/
def plateauReached (cfg : Config) (scores : List SVal) : Bool :=
  match cfg.patience with
  | none => false
  | some p =>
    if scores.length ≤ p then false
    else decide (improveBy cfg.gib (bestScore cfg.gib (scores.drop p))
      (bestScore cfg.gib scores) < cfg.tolerance)

/-- Candidate-count budget: the configured maximum, or the default of 5
when neither a count nor a time budget was configured. -/
def countBudgetReached (cfg : Config) (count : Nat) : Bool :=
  match cfg.maxPipelines with
  | some m => decide (m ≤ count)
  | none =>
    match cfg.maxTime with
    | some _ => false
    | none => decide (5 ≤ count)

/-- Elapsed-time budget check. -/
def timeBudgetReached (cfg : Config) (elapsed : ℚ) : Bool :=
  match cfg.maxTime with
  | some t => decide (t ≤ elapsed)
  | none => false

/-- Any component of the composite stopping budget reached. -/
def stopReached (cfg : Config) (elapsed : ℚ) (count : Nat) (scores : List SVal) : Bool :=
  countBudgetReached cfg count || timeBudgetReached cfg elapsed || plateauReached cfg scores

/-- Modelled from the spec: the Stopping Controller's decision (missing
module evalml/automl/automl_search.py). It never halts before at least one
candidate has been evaluated and recorded. -/
def shouldContinue (cfg : Config) (elapsed : ℚ) (count : Nat) (scores : List SVal) : Bool :=
  count == 0 || !(stopReached cfg elapsed count scores)

/-- Modelled from the spec: the orchestrator's control loop (missing
module evalml/automl/automl_search.py). Consumes the Algorithm's candidate
stream; before each candidate (except the very first) it consults the
Stopping Controller; each successful evaluation is recorded with the next
dense id. Under the strict policy a candidate evaluation error stops the
loop and is returned alongside the state reached so far (the exception
then propagates unchanged; already-recorded candidates remain). -/
def runLoop (cfg : Config) (oracle : Oracle) (raiseErrors : Bool) (plan : List Fold) :
    List Pipeline → AutoMLState → ℚ → List SVal → AutoMLState × Option String
  | [], st, _, _ => (st, none)
  | c :: rest, st, elapsed, scores =>
    if shouldContinue cfg elapsed st.results.length scores then
      match evaluatePipeline cfg oracle raiseErrors c plan with
      | .error e => (st, some e)
      | .ok cvs =>
        let res := mkResult oracle c st.results.length cvs
        runLoop cfg oracle raiseErrors plan rest (recordResult st res)
          (elapsed + oracle.trainTime c) (res.score :: scores)
    else (st, none)

/-- Modelled from the spec: the `search`/`run` operation (missing module
evalml/automl/automl_search.py): choose the split plan from the row count,
run the control loop from elapsed time zero, and mark the instance as
having searched on normal completion. -/
def search (cfg : Config) (oracle : Oracle) (raiseErrors : Bool) (cands : List Pipeline)
    (rows : Nat) (st : AutoMLState) : AutoMLState × Option String :=
  let out := runLoop cfg oracle raiseErrors (makeSplitPlan rows) cands st 0 []
  ({ out.1 with has_searched := out.1.has_searched || out.2.isNone }, out.2)

/-- One row of the rankings views: the projection of an Evaluation Result
shown by `rankings`/`full_rankings`. -/
structure RankRow where
  id : Nat
  pipeline_name : String
  score : SVal
  high_variance_cv : Bool
  parameters : Params
  deriving DecidableEq, Repr

/-- Project an Evaluation Result to its rankings row. -/
def toRow (r : PipelineResult) : RankRow :=
  { id := r.id
    pipeline_name := r.pipeline_name
    score := r.score
    high_variance_cv := r.high_variance_cv
    parameters := r.parameters }

/-- The sort order of the rankings views: by score, honoring the primary
objective's greater_is_better flag, NaN last. -/
def rowOrder (gib : Bool) (a b : RankRow) : Prop :=
  svalBE gib a.score b.score = true

instance (gib : Bool) : DecidableRel (rowOrder gib) :=
  fun _ _ => inferInstanceAs (Decidable (_ = true))

/-- Modelled from the spec: `full_rankings`, every Evaluation Result
sorted by score (missing module evalml/automl/automl_search.py). -/
def fullRankings (gib : Bool) (st : AutoMLState) : List RankRow :=
  (st.results.map toRow).insertionSort (rowOrder gib)

/-- Keep the first row for each distinct pipeline name, skipping names
already seen. -/
def dedupByNameAux (seen : List String) : List RankRow → List RankRow
  | [] => []
  | a :: t =>
    if a.pipeline_name ∈ seen then dedupByNameAux seen t
    else a :: dedupByNameAux (a.pipeline_name :: seen) t

/-- Deduplicate a rankings list by pipeline name, keeping the first (hence
best, on a sorted list) row per name. -/
def dedupByName (l : List RankRow) : List RankRow :=
  dedupByNameAux [] l

/-- Modelled from the spec: `rankings`, the deduplicated view keeping one
row per distinct pipeline class name, the best-scoring one (missing module
evalml/automl/automl_search.py). -/
def rankings (gib : Bool) (st : AutoMLState) : List RankRow :=
  dedupByName (fullRankings gib st)

/-- Whether an entry with the same pipeline class name and identical
hyperparameters is already recorded: the dedup key of `add_to_rankings`
(pinned by test_add_to_rankings_duplicate and
test_add_to_rankings_trained). -/
def isDuplicate (st : AutoMLState) (p : Pipeline) : Bool :=
  st.results.any fun r =>
    decide (r.pipeline_name = p.className ∧ r.parameters = p.parameters)

/-- Modelled from the spec: `add_result` / `add_to_rankings` (missing
module evalml/automl/automl_search.py): requires a prior run, performs no
insertion and returns no new id on a (class, hyperparameters) duplicate,
and otherwise evaluates the pipeline through the engine and records it
under the next dense id. -/
def addToRankings (cfg : Config) (oracle : Oracle) (raiseErrors : Bool) (st : AutoMLState)
    (p : Pipeline) (rows : Nat) : Except String (AutoMLState × Option Nat) :=
  if !st.has_searched then .error "Please run automl search before adding pipelines"
  else if isDuplicate st p then .ok (st, none)
  else
    match evaluatePipeline cfg oracle raiseErrors p (makeSplitPlan rows) with
    | .error e => .error e
    | .ok cvs =>
      let res := mkResult oracle p st.results.length cvs
      .ok (recordResult st res, some st.results.length)

/-- Tokens of the opaque persisted blob: the persistence medium of the
spec round-trips the orchestrator state through a flat token stream. -/
inductive Tok
  | tn (v : Nat)
  | ts (v : String)
  | tq (v : ℚ)
  | tb (v : Bool)
  deriving DecidableEq

def encodeSVal : SVal → List Tok
  | SVal.nan => [Tok.tb false]
  | SVal.num q => [Tok.tb true, Tok.tq q]

def decodeSVal : List Tok → Option (SVal × List Tok)
  | Tok.tb false :: rest => some (SVal.nan, rest)
  | Tok.tb true :: Tok.tq q :: rest => some (SVal.num q, rest)
  | _ => none

def encodeOptQ : Option ℚ → List Tok
  | none => [Tok.tb false]
  | some q => [Tok.tb true, Tok.tq q]

def decodeOptQ : List Tok → Option (Option ℚ × List Tok)
  | Tok.tb false :: rest => some (none, rest)
  | Tok.tb true :: Tok.tq q :: rest => some (some q, rest)
  | _ => none

/-- Concatenated encodings of a list's elements. -/
def encodeListAux (enc : α → List Tok) : List α → List Tok
  | [] => []
  | x :: xs => enc x ++ encodeListAux enc xs

/-- Length-prefixed list encoding. -/
def encodeList (enc : α → List Tok) (xs : List α) : List Tok :=
  Tok.tn xs.length :: encodeListAux enc xs

def decodeListAux (dec : List Tok → Option (α × List Tok)) :
    Nat → List Tok → Option (List α × List Tok)
  | 0, toks => some ([], toks)
  | n + 1, toks =>
    match dec toks with
    | none => none
    | some (x, rest) =>
      match decodeListAux dec n rest with
      | none => none
      | some (xs, rest2) => some (x :: xs, rest2)

def decodeList (dec : List Tok → Option (α × List Tok)) :
    List Tok → Option (List α × List Tok)
  | Tok.tn n :: rest => decodeListAux dec n rest
  | _ => none

def encodeStrSVal (e : String × SVal) : List Tok :=
  Tok.ts e.1 :: encodeSVal e.2

def decodeStrSVal : List Tok → Option ((String × SVal) × List Tok)
  | Tok.ts s :: rest =>
    match decodeSVal rest with
    | some (v, rest2) => some ((s, v), rest2)
    | none => none
  | _ => none

def encodeStrQ (e : String × ℚ) : List Tok :=
  [Tok.ts e.1, Tok.tq e.2]

def decodeStrQ : List Tok → Option ((String × ℚ) × List Tok)
  | Tok.ts s :: Tok.tq q :: rest => some ((s, q), rest)
  | _ => none

def encodeParamEntry (e : String × List (String × ℚ)) : List Tok :=
  Tok.ts e.1 :: encodeList encodeStrQ e.2

def decodeParamEntry : List Tok → Option ((String × List (String × ℚ)) × List Tok)
  | Tok.ts s :: rest =>
    match decodeList decodeStrQ rest with
    | some (v, rest2) => some ((s, v), rest2)
    | none => none
  | _ => none

def encodeCVData (cv : CVData) : List Tok :=
  encodeList encodeStrSVal cv.all_objective_scores
    ++ encodeSVal cv.score ++ encodeOptQ cv.binary_classification_threshold

def decodeCVData (toks : List Tok) : Option (CVData × List Tok) :=
  match decodeList decodeStrSVal toks with
  | none => none
  | some (scores, r1) =>
    match decodeSVal r1 with
    | none => none
    | some (sc, r2) =>
      match decodeOptQ r2 with
      | none => none
      | some (th, r3) =>
        some ({ all_objective_scores := scores, score := sc
                binary_classification_threshold := th }, r3)

def encodeResult (r : PipelineResult) : List Tok :=
  Tok.tn r.id :: Tok.ts r.pipeline_name :: Tok.ts r.pipeline_class
    :: Tok.ts r.pipeline_summary :: encodeList encodeParamEntry r.parameters
    ++ encodeSVal r.score ++ [Tok.tb r.high_variance_cv, Tok.tq r.training_time]
    ++ encodeList encodeCVData r.cv_data

def decodeResult : List Tok → Option (PipelineResult × List Tok)
  | Tok.tn rid :: Tok.ts nm :: Tok.ts cls :: Tok.ts summ :: rest =>
    match decodeList decodeParamEntry rest with
    | none => none
    | some (ps, r1) =>
      match decodeSVal r1 with
      | none => none
      | some (sc, r2) =>
        match r2 with
        | Tok.tb hv :: Tok.tq tt :: r3 =>
          match decodeList decodeCVData r3 with
          | none => none
          | some (cvs, r4) =>
            some ({ id := rid, pipeline_name := nm, pipeline_class := cls
                    pipeline_summary := summ, parameters := ps, score := sc
                    high_variance_cv := hv, training_time := tt, cv_data := cvs }, r4)
        | _ => none
  | _ => none

def encodeNat (n : Nat) : List Tok := [Tok.tn n]

def decodeNat : List Tok → Option (Nat × List Tok)
  | Tok.tn n :: rest => some (n, rest)
  | _ => none

/-- Modelled from the spec: `save`/persist serializes the full Results
Store, Search Order and flags into an opaque blob (missing persistence
code of evalml/automl/automl_search.py). -/
def persist (st : AutoMLState) : List Tok :=
  encodeList encodeResult st.results ++ encodeList encodeNat st.search_order
    ++ [Tok.tb st.has_searched]

/-- Modelled from the spec: `load`/restore parses a persisted blob back
into an orchestrator state; `none` on a malformed or incomplete blob. -/
def restore (toks : List Tok) : Option AutoMLState :=
  match decodeList decodeResult toks with
  | none => none
  | some (rs, r1) =>
    match decodeList decodeNat r1 with
    | none => none
    | some (so, r2) =>
      match r2 with
      | [Tok.tb hs] => some { results := rs, search_order := so, has_searched := hs }
      | _ => none

/-- An external-collaborator oracle whose fits and scorings always succeed
with score 1. -/
def okOracle : Oracle :=
  { fitResult := fun _ _ => .ok ()
    primaryScore := fun _ _ => .ok 1
    addScore := fun _ _ _ => .ok 1
    optThreshold := fun _ _ => 7/10
    trainTime := fun _ => 1 }

/-- An oracle whose pipeline fit always raises, as the mocked fit of
test_pipeline_fit_raises does. -/
def failFitOracle : Oracle :=
  { okOracle with fitResult := fun _ _ => .error "all your model are belong to us" }

/-- An oracle whose primary-objective scoring always raises, as the mocked
score of test_pipeline_score_raises does. -/
def failScoreOracle : Oracle :=
  { okOracle with primaryScore := fun _ _ => .error "all your model are belong to us" }

/-- An oracle for which exactly the additional objective named AUC raises,
as the mocked AUC.score of test_objective_score_raises does. -/
def failAUCOracle : Oracle :=
  { okOracle with addScore := fun _ _ o =>
      if o = "AUC" then .error "all your model are belong to us" else .ok 1 }

/-- A binary-classification search configuration with the default
objective, threshold optimization disabled, and a budget of 1 candidate. -/
def binaryConfig : Config :=
  { problemType := ProblemType.binary
    primaryName := "Log Loss Binary"
    gib := false
    additionalObjectives := ["Accuracy Binary", "AUC"]
    maxTime := none
    maxPipelines := some 1
    patience := none
    tolerance := 0
    optimizeThresholds := false }

/-- The binary configuration with a candidate budget of 3, as in
test_rankings. -/
def rankingsConfig : Config :=
  { binaryConfig with maxPipelines := some 3 }

/-- The binary configuration with a zero time budget and no candidate
budget. -/
def zeroTimeConfig : Config :=
  { binaryConfig with maxTime := some 0, maxPipelines := none }

/-- The batch-0 baseline candidate for binary problems. -/
def baselinePipeline : Pipeline :=
  { className := "Mode Baseline Binary Classification Pipeline", parameters := [] }

/-- A random-forest candidate. -/
def rfPipelineA : Pipeline :=
  { className := "Random Forest Binary Classification Pipeline"
    parameters := [("Random Forest Classifier", [("n_estimators", 10)])] }

/-- A second random-forest candidate of the same pipeline class with
different hyperparameters. -/
def rfPipelineB : Pipeline :=
  { className := "Random Forest Binary Classification Pipeline"
    parameters := [("Random Forest Classifier", [("n_estimators", 50)])] }

/-- A recorded Evaluation Result for a dummy binary pipeline. -/
def dummyResult : PipelineResult :=
  { id := 0
    pipeline_name := "Dummy Binary Pipeline"
    pipeline_class := "Dummy Binary Pipeline"
    pipeline_summary := "Dummy Binary Pipeline"
    parameters := [("Dummy Classifier", [("a", 1)])]
    score := SVal.num 1
    high_variance_cv := false
    training_time := 1
    cv_data := [] }

/-- An orchestrator state after one completed run that recorded
`dummyResult`. -/
def searchedState : AutoMLState :=
  { results := [dummyResult], search_order := [0], has_searched := true }

/-- A pipeline with the same class and hyperparameters as `dummyResult`. -/
def dummyPipelineA : Pipeline :=
  { className := "Dummy Binary Pipeline"
    parameters := [("Dummy Classifier", [("a", 1)])] }

/-- A pipeline of the same class as `dummyResult` with a distinct
hyperparameter set. -/
def dummyPipelineB : Pipeline :=
  { className := "Dummy Binary Pipeline"
    parameters := [("Dummy Classifier", [("a", 2)])] }

/-- A pipeline of a different class whose hyperparameters are identical to
`dummyResult`, as in test_add_to_rankings_trained. -/
def coolPipeline : Pipeline :=
  { className := "Cool Binary Classification Pipeline"
    parameters := [("Dummy Classifier", [("a", 1)])] }

lemma evaluateFold_fit_error (cfg : Config) (oracle : Oracle) (p : Pipeline) (f : Fold)
    (e : String) (h : oracle.fitResult p f = Except.error e) :
    evaluateFold cfg oracle p f = Except.error e := by
  simp [evaluateFold, h]

lemma evaluateFold_score_error (cfg : Config) (oracle : Oracle) (p : Pipeline) (f : Fold)
    (e : String) (hf : oracle.fitResult p f = Except.ok ())
    (hs : oracle.primaryScore p f = Except.error e) :
    evaluateFold cfg oracle p f = Except.error e := by
  simp [evaluateFold, hf, hs]

lemma evaluateFold_ok (cfg : Config) (oracle : Oracle) (p : Pipeline) (f : Fold) (q : ℚ)
    (hf : oracle.fitResult p f = Except.ok ())
    (hs : oracle.primaryScore p f = Except.ok q) :
    evaluateFold cfg oracle p f = Except.ok (okCVData cfg oracle p f q) := by
  simp [evaluateFold, hf, hs, okCVData]

lemma evaluatePipeline_ok_length (cfg : Config) (oracle : Oracle) (b : Bool) (p : Pipeline) :
    ∀ (plan : List Fold) (cvs : List CVData),
      evaluatePipeline cfg oracle b p plan = Except.ok cvs → cvs.length = plan.length := by
  intro plan
  induction plan with
  | nil =>
    intro cvs h
    simp only [evaluatePipeline] at h
    cases h
    rfl
  | cons f rest ih =>
    intro cvs h
    simp only [evaluatePipeline] at h
    cases hf : evaluateFold cfg oracle p f with
    | ok cv =>
      rw [hf] at h
      cases hr : evaluatePipeline cfg oracle b p rest with
      | ok cvs2 =>
        rw [hr] at h
        cases h
        simp [ih _ hr]
      | error e2 => rw [hr] at h; cases h
    | error e =>
      rw [hf] at h
      cases b with
      | true => simp at h
      | false =>
        simp only [Bool.false_eq_true, if_false] at h
        cases hr : evaluatePipeline cfg oracle false p rest with
        | ok cvs2 =>
          rw [hr] at h
          cases h
          simp [ih _ hr]
        | error e2 => rw [hr] at h; cases h

lemma evaluatePipeline_contained_ok (cfg : Config) (oracle : Oracle) (p : Pipeline) :
    ∀ plan : List Fold, ∃ cvs, evaluatePipeline cfg oracle false p plan = Except.ok cvs := by
  intro plan
  induction plan with
  | nil => exact ⟨[], rfl⟩
  | cons f rest ih =>
    obtain ⟨cvs, hcvs⟩ := ih
    cases hf : evaluateFold cfg oracle p f with
    | ok cv => exact ⟨cv :: cvs, by simp [evaluatePipeline, hf, hcvs]⟩
    | error e => exact ⟨nanCVData cfg f :: cvs, by simp [evaluatePipeline, hf, hcvs]⟩

lemma evaluatePipeline_map_of_ok (cfg : Config) (oracle : Oracle) (b : Bool) (p : Pipeline)
    (gf : Fold → CVData) :
    ∀ plan : List Fold, (∀ f ∈ plan, evaluateFold cfg oracle p f = Except.ok (gf f)) →
      evaluatePipeline cfg oracle b p plan = Except.ok (plan.map gf) := by
  intro plan
  induction plan with
  | nil => intro _; rfl
  | cons f rest ih =>
    intro h
    have hf := h f (by simp)
    have hr := ih (fun f2 hf2 => h f2 (by simp [hf2]))
    simp [evaluatePipeline, hf, hr]

lemma evaluatePipeline_map_of_error (cfg : Config) (oracle : Oracle) (p : Pipeline) :
    ∀ plan : List Fold, (∀ f ∈ plan, ∃ e, evaluateFold cfg oracle p f = Except.error e) →
      evaluatePipeline cfg oracle false p plan = Except.ok (plan.map (nanCVData cfg)) := by
  intro plan
  induction plan with
  | nil => intro _; rfl
  | cons f rest ih =>
    intro h
    obtain ⟨e, hf⟩ := h f (by simp)
    have hr := ih (fun f2 hf2 => h f2 (by simp [hf2]))
    simp [evaluatePipeline, hf, hr]

lemma evaluatePipeline_error_head (cfg : Config) (oracle : Oracle) (p : Pipeline)
    (f : Fold) (fs : List Fold) (e : String) (h : evaluateFold cfg oracle p f = Except.error e) :
    evaluatePipeline cfg oracle true p (f :: fs) = Except.error e := by
  simp [evaluatePipeline, h]

lemma evaluatePipeline_mem_ok (cfg : Config) (oracle : Oracle) (b : Bool) (p : Pipeline) :
    ∀ (plan : List Fold) (cvs : List CVData) (cv : CVData),
      evaluatePipeline cfg oracle b p plan = Except.ok cvs → cv ∈ cvs →
      (∃ f ∈ plan, evaluateFold cfg oracle p f = Except.ok cv) ∨
      (∃ f ∈ plan, cv = nanCVData cfg f) := by
  intro plan
  induction plan with
  | nil =>
    intro cvs cv h hm
    simp only [evaluatePipeline] at h
    cases h
    simp at hm
  | cons f rest ih =>
    intro cvs cv h hm
    simp only [evaluatePipeline] at h
    cases hf : evaluateFold cfg oracle p f with
    | ok cv2 =>
      rw [hf] at h
      cases hr : evaluatePipeline cfg oracle b p rest with
      | ok cvs2 =>
        rw [hr] at h
        cases h
        rcases List.mem_cons.mp hm with heq | hmem
        · exact Or.inl ⟨f, by simp, heq ▸ hf⟩
        · rcases ih _ _ hr hmem with ⟨f2, hf2, he2⟩ | ⟨f2, hf2, he2⟩
          · exact Or.inl ⟨f2, by simp [hf2], he2⟩
          · exact Or.inr ⟨f2, by simp [hf2], he2⟩
      | error e2 => rw [hr] at h; cases h
    | error e =>
      rw [hf] at h
      cases b with
      | true => simp at h
      | false =>
        simp only [Bool.false_eq_true, if_false] at h
        cases hr : evaluatePipeline cfg oracle false p rest with
        | ok cvs2 =>
          rw [hr] at h
          cases h
          rcases List.mem_cons.mp hm with heq | hmem
          · exact Or.inr ⟨f, by simp, heq⟩
          · rcases ih _ _ hr hmem with ⟨f2, hf2, he2⟩ | ⟨f2, hf2, he2⟩
            · exact Or.inl ⟨f2, by simp [hf2], he2⟩
            · exact Or.inr ⟨f2, by simp [hf2], he2⟩
        | error e2 => rw [hr] at h; cases h

lemma makeSplitPlan_large (rows : Nat) (h : largeDataThreshold < rows) :
    makeSplitPlan rows = holdoutSplit rows := by
  simp [makeSplitPlan, h]

lemma holdoutSplit_length (rows : Nat) : (holdoutSplit rows).length = 1 := rfl

lemma kfold3_eq (rows : Nat) :
    kfold3 rows =
      [{ nTrain := rows - (rows / 3 + (if 0 < rows % 3 then 1 else 0)),
         nTest := rows / 3 + (if 0 < rows % 3 then 1 else 0) },
       { nTrain := rows - (rows / 3 + (if 1 < rows % 3 then 1 else 0)),
         nTest := rows / 3 + (if 1 < rows % 3 then 1 else 0) },
       { nTrain := rows - (rows / 3 + (if 2 < rows % 3 then 1 else 0)),
         nTest := rows / 3 + (if 2 < rows % 3 then 1 else 0) }] := by
  simp [kfold3, List.range_succ]

lemma makeSplitPlan_ne_nil (rows : Nat) : makeSplitPlan rows ≠ [] := by
  by_cases h : largeDataThreshold < rows
  · simp [makeSplitPlan, h, holdoutSplit]
  · simp only [makeSplitPlan, h, if_false]
    rw [kfold3_eq]
    simp

lemma makeSplitPlan_cons (rows : Nat) : ∃ f fs, makeSplitPlan rows = f :: fs :=
  List.exists_cons_of_ne_nil (makeSplitPlan_ne_nil rows)

lemma makeSplitPlan_pos (rows : Nat) (h : 3 ≤ rows) :
    ∀ f ∈ makeSplitPlan rows, 0 < f.nTrain ∧ 0 < f.nTest := by
  intro f hf
  by_cases hl : largeDataThreshold < rows
  · simp only [makeSplitPlan, hl, if_true, holdoutSplit, List.mem_singleton] at hf
    subst hf
    have : largeDataThreshold = 100000 := rfl
    constructor <;> simp only [] <;> omega
  · simp only [makeSplitPlan, hl, if_false] at hf
    rw [kfold3_eq] at hf
    simp only [List.mem_cons, List.not_mem_nil, or_false] at hf
    rcases hf with hf | hf | hf <;>
      (subst hf; constructor <;> simp only [] <;> (split <;> omega))


lemma shouldContinue_zero (cfg : Config) (elapsed : ℚ) (scores : List SVal) :
    shouldContinue cfg elapsed 0 scores = true := by
  simp [shouldContinue]

lemma runLoop_cons_stop (cfg : Config) (oracle : Oracle) (b : Bool) (plan : List Fold)
    (c : Pipeline) (rest : List Pipeline) (st : AutoMLState) (elapsed : ℚ)
    (scores : List SVal) (hc : shouldContinue cfg elapsed st.results.length scores = false) :
    runLoop cfg oracle b plan (c :: rest) st elapsed scores = (st, none) := by
  simp [runLoop, hc]

lemma runLoop_cons_error (cfg : Config) (oracle : Oracle) (b : Bool) (plan : List Fold)
    (c : Pipeline) (rest : List Pipeline) (st : AutoMLState) (elapsed : ℚ)
    (scores : List SVal) (e : String)
    (hc : shouldContinue cfg elapsed st.results.length scores = true)
    (he : evaluatePipeline cfg oracle b c plan = Except.error e) :
    runLoop cfg oracle b plan (c :: rest) st elapsed scores = (st, some e) := by
  simp [runLoop, hc, he]

lemma runLoop_cons_ok (cfg : Config) (oracle : Oracle) (b : Bool) (plan : List Fold)
    (c : Pipeline) (rest : List Pipeline) (st : AutoMLState) (elapsed : ℚ)
    (scores : List SVal) (cvs : List CVData)
    (hc : shouldContinue cfg elapsed st.results.length scores = true)
    (hcvs : evaluatePipeline cfg oracle b c plan = Except.ok cvs) :
    runLoop cfg oracle b plan (c :: rest) st elapsed scores =
      runLoop cfg oracle b plan rest
        (recordResult st (mkResult oracle c st.results.length cvs))
        (elapsed + oracle.trainTime c)
        ((mkResult oracle c st.results.length cvs).score :: scores) := by
  simp [runLoop, hc, hcvs]

lemma runLoop_contained_none (cfg : Config) (oracle : Oracle) (plan : List Fold) :
    ∀ (cs : List Pipeline) (st : AutoMLState) (elapsed : ℚ) (scores : List SVal),
      (runLoop cfg oracle false plan cs st elapsed scores).2 = none := by
  intro cs
  induction cs with
  | nil => intro st elapsed scores; rfl
  | cons c rest ih =>
    intro st elapsed scores
    by_cases hc : shouldContinue cfg elapsed st.results.length scores = true
    · obtain ⟨cvs, hcvs⟩ := evaluatePipeline_contained_ok cfg oracle c plan
      rw [runLoop_cons_ok cfg oracle false plan c rest st elapsed scores cvs hc hcvs]
      exact ih _ _ _
    · rw [runLoop_cons_stop cfg oracle false plan c rest st elapsed scores
        (Bool.not_eq_true _ ▸ hc)]

lemma runLoop_ok_none (cfg : Config) (oracle : Oracle) (b : Bool) (plan : List Fold) :
    ∀ (cs : List Pipeline) (st : AutoMLState) (elapsed : ℚ) (scores : List SVal),
      (∀ c ∈ cs, ∃ cvs, evaluatePipeline cfg oracle b c plan = Except.ok cvs) →
      (runLoop cfg oracle b plan cs st elapsed scores).2 = none := by
  intro cs
  induction cs with
  | nil => intro st elapsed scores _; rfl
  | cons c rest ih =>
    intro st elapsed scores hok
    by_cases hc : shouldContinue cfg elapsed st.results.length scores = true
    · obtain ⟨cvs, hcvs⟩ := hok c (by simp)
      rw [runLoop_cons_ok cfg oracle b plan c rest st elapsed scores cvs hc hcvs]
      exact ih _ _ _ (fun c2 hc2 => hok c2 (by simp [hc2]))
    · rw [runLoop_cons_stop cfg oracle b plan c rest st elapsed scores
        (Bool.not_eq_true _ ▸ hc)]

lemma runLoop_results_mem (cfg : Config) (oracle : Oracle) (b : Bool) (plan : List Fold) :
    ∀ (cs : List Pipeline) (st : AutoMLState) (elapsed : ℚ) (scores : List SVal)
      (r : PipelineResult),
      r ∈ (runLoop cfg oracle b plan cs st elapsed scores).1.results →
      r ∈ st.results ∨ ∃ c ∈ cs, ∃ cvs,
        evaluatePipeline cfg oracle b c plan = Except.ok cvs ∧
        ∃ rid, r = mkResult oracle c rid cvs := by
  intro cs
  induction cs with
  | nil => intro st elapsed scores r h; exact Or.inl h
  | cons c rest ih =>
    intro st elapsed scores r h
    by_cases hc : shouldContinue cfg elapsed st.results.length scores = true
    · cases hcvs : evaluatePipeline cfg oracle b c plan with
      | error e =>
        rw [runLoop_cons_error cfg oracle b plan c rest st elapsed scores e hc hcvs] at h
        exact Or.inl h
      | ok cvs =>
        rw [runLoop_cons_ok cfg oracle b plan c rest st elapsed scores cvs hc hcvs] at h
        rcases ih _ _ _ _ h with hold | ⟨c2, hc2, cvs2, hcvs2, rid, hr⟩
        · simp only [recordResult, List.mem_append, List.mem_singleton] at hold
          rcases hold with hold | hold
          · exact Or.inl hold
          · exact Or.inr ⟨c, by simp, cvs, hcvs, st.results.length, hold⟩
        · exact Or.inr ⟨c2, by simp [hc2], cvs2, hcvs2, rid, hr⟩
    · rw [runLoop_cons_stop cfg oracle b plan c rest st elapsed scores
        (Bool.not_eq_true _ ▸ hc)] at h
      exact Or.inl h

lemma runLoop_ids_in_order (cfg : Config) (oracle : Oracle) (b : Bool) (plan : List Fold) :
    ∀ (cs : List Pipeline) (st : AutoMLState) (elapsed : ℚ) (scores : List SVal),
      (∀ r ∈ st.results, r.id ∈ st.search_order) →
      ∀ r ∈ (runLoop cfg oracle b plan cs st elapsed scores).1.results,
        r.id ∈ (runLoop cfg oracle b plan cs st elapsed scores).1.search_order := by
  intro cs
  induction cs with
  | nil => intro st elapsed scores hinv r h; exact hinv r h
  | cons c rest ih =>
    intro st elapsed scores hinv r h
    by_cases hc : shouldContinue cfg elapsed st.results.length scores = true
    · cases hcvs : evaluatePipeline cfg oracle b c plan with
      | error e =>
        rw [runLoop_cons_error cfg oracle b plan c rest st elapsed scores e hc hcvs] at h ⊢
        exact hinv r h
      | ok cvs =>
        rw [runLoop_cons_ok cfg oracle b plan c rest st elapsed scores cvs hc hcvs] at h ⊢
        refine ih _ _ _ ?_ r h
        intro r2 h2
        simp only [recordResult, List.mem_append, List.mem_singleton] at h2 ⊢
        rcases h2 with h2 | h2
        · exact Or.inl (hinv r2 h2)
        · subst h2; exact Or.inr (by simp [mkResult])
    · rw [runLoop_cons_stop cfg oracle b plan c rest st elapsed scores
        (Bool.not_eq_true _ ▸ hc)] at h ⊢
      exact hinv r h

lemma runLoop_length_mono (cfg : Config) (oracle : Oracle) (b : Bool) (plan : List Fold) :
    ∀ (cs : List Pipeline) (st : AutoMLState) (elapsed : ℚ) (scores : List SVal),
      st.results.length ≤ (runLoop cfg oracle b plan cs st elapsed scores).1.results.length := by
  intro cs
  induction cs with
  | nil => intro st elapsed scores; exact Nat.le_refl _
  | cons c rest ih =>
    intro st elapsed scores
    by_cases hc : shouldContinue cfg elapsed st.results.length scores = true
    · cases hcvs : evaluatePipeline cfg oracle b c plan with
      | error e =>
        rw [runLoop_cons_error cfg oracle b plan c rest st elapsed scores e hc hcvs]
      | ok cvs =>
        rw [runLoop_cons_ok cfg oracle b plan c rest st elapsed scores cvs hc hcvs]
        refine Nat.le_trans ?_ (ih _ _ _)
        simp [recordResult]
    · rw [runLoop_cons_stop cfg oracle b plan c rest st elapsed scores
        (Bool.not_eq_true _ ▸ hc)]

lemma runLoop_first_recorded (cfg : Config) (oracle : Oracle) (b : Bool) (plan : List Fold)
    (c : Pipeline) (rest : List Pipeline) (st : AutoMLState) (elapsed : ℚ)
    (scores : List SVal) (hempty : st.results = [])
    (hok : ∃ cvs, evaluatePipeline cfg oracle b c plan = Except.ok cvs) :
    1 ≤ (runLoop cfg oracle b plan (c :: rest) st elapsed scores).1.results.length := by
  obtain ⟨cvs, hcvs⟩ := hok
  have hc : shouldContinue cfg elapsed st.results.length scores = true := by
    rw [hempty]; exact shouldContinue_zero cfg elapsed scores
  rw [runLoop_cons_ok cfg oracle b plan c rest st elapsed scores cvs hc hcvs]
  refine Nat.le_trans ?_ (runLoop_length_mono cfg oracle b plan rest _ _ _)
  simp [recordResult]

lemma svalBE_total (gib : Bool) (a b : SVal) :
    svalBE gib a b = true ∨ svalBE gib b a = true := by
  cases a with
  | nan => cases b <;> simp [svalBE]
  | num x =>
    cases b with
    | nan => simp [svalBE]
    | num y => cases gib <;> simp [svalBE] <;> exact le_total _ _

lemma svalBE_trans (gib : Bool) (a b c : SVal) (h1 : svalBE gib a b = true)
    (h2 : svalBE gib b c = true) : svalBE gib a c = true := by
  cases a <;> cases b <;> cases c <;> cases gib <;> simp_all [svalBE] <;> linarith

instance instTotalRowOrder (gib : Bool) : IsTotal RankRow (rowOrder gib) :=
  ⟨fun a b => svalBE_total gib a.score b.score⟩

instance instTransRowOrder (gib : Bool) : IsTrans RankRow (rowOrder gib) :=
  ⟨fun _ _ _ h1 h2 => svalBE_trans gib _ _ _ h1 h2⟩

lemma dedupByNameAux_length_le :
    ∀ (l : List RankRow) (seen : List String), (dedupByNameAux seen l).length ≤ l.length := by
  intro l
  induction l with
  | nil => intro seen; exact Nat.le_refl _
  | cons a t ih =>
    intro seen
    simp only [dedupByNameAux]
    by_cases hm : a.pipeline_name ∈ seen
    · rw [if_pos hm]
      exact Nat.le_trans (ih seen) (Nat.le_succ _)
    · rw [if_neg hm]
      simpa using Nat.succ_le_succ (ih (a.pipeline_name :: seen))

lemma mem_dedupByNameAux :
    ∀ (l : List RankRow) (seen : List String) (x : RankRow),
      x ∈ dedupByNameAux seen l → x ∈ l ∧ x.pipeline_name ∉ seen := by
  intro l
  induction l with
  | nil => intro seen x h; simp [dedupByNameAux] at h
  | cons a t ih =>
    intro seen x h
    simp only [dedupByNameAux] at h
    by_cases hm : a.pipeline_name ∈ seen
    · rw [if_pos hm] at h
      obtain ⟨h1, h2⟩ := ih seen x h
      exact ⟨by simp [h1], h2⟩
    · rw [if_neg hm] at h
      rcases List.mem_cons.mp h with heq | hmem
      · subst heq; exact ⟨by simp, hm⟩
      · obtain ⟨h1, h2⟩ := ih _ x hmem
        refine ⟨by simp [h1], fun hcon => h2 (by simp [hcon])⟩

lemma names_mem_dedupByNameAux :
    ∀ (l : List RankRow) (seen : List String) (n : String),
      n ∈ (dedupByNameAux seen l).map (fun r => r.pipeline_name) ↔
        (n ∈ l.map (fun r => r.pipeline_name) ∧ n ∉ seen) := by
  intro l
  induction l with
  | nil => intro seen n; simp [dedupByNameAux]
  | cons a t ih =>
    intro seen n
    simp only [dedupByNameAux]
    by_cases hm : a.pipeline_name ∈ seen
    · rw [if_pos hm]
      rw [ih seen n]
      constructor
      · rintro ⟨h1, h2⟩; exact ⟨by simp [h1], h2⟩
      · rintro ⟨h1, h2⟩
        simp only [List.map_cons, List.mem_cons] at h1
        rcases h1 with h1 | h1
        · exact absurd (h1 ▸ hm) h2
        · exact ⟨h1, h2⟩
    · rw [if_neg hm]
      simp only [List.map_cons, List.mem_cons, ih (a.pipeline_name :: seen) n,
        List.mem_cons]
      constructor
      · rintro (heq | ⟨h1, h2⟩)
        · exact ⟨Or.inl heq, heq ▸ hm⟩
        · exact ⟨Or.inr h1, fun hcon => h2 (Or.inr hcon)⟩
      · rintro ⟨h1 | h1, h2⟩
        · exact Or.inl h1
        · by_cases heq : n = a.pipeline_name
          · exact Or.inl heq
          · exact Or.inr ⟨h1, fun hcon => (hcon.elim heq fun hx => h2 hx)⟩

lemma names_nodup_dedupByNameAux :
    ∀ (l : List RankRow) (seen : List String),
      ((dedupByNameAux seen l).map (fun r => r.pipeline_name)).Nodup := by
  intro l
  induction l with
  | nil => intro seen; simp [dedupByNameAux]
  | cons a t ih =>
    intro seen
    simp only [dedupByNameAux]
    by_cases hm : a.pipeline_name ∈ seen
    · rw [if_pos hm]; exact ih seen
    · rw [if_neg hm]
      simp only [List.map_cons, List.nodup_cons]
      refine ⟨fun hcon => ?_, ih _⟩
      have := (names_mem_dedupByNameAux t (a.pipeline_name :: seen) a.pipeline_name).mp hcon
      exact this.2 (by simp)

lemma dedupByNameAux_best (P : RankRow → RankRow → Prop) :
    ∀ (l : List RankRow) (seen : List String), l.Pairwise P →
      ∀ x ∈ dedupByNameAux seen l, ∀ y ∈ l,
        y.pipeline_name = x.pipeline_name → x = y ∨ P x y := by
  intro l
  induction l with
  | nil => intro seen _ x hx; simp [dedupByNameAux] at hx
  | cons a t ih =>
    intro seen hp x hx y hy hname
    obtain ⟨hpa, hpt⟩ := List.pairwise_cons.mp hp
    simp only [dedupByNameAux] at hx
    by_cases hm : a.pipeline_name ∈ seen
    · rw [if_pos hm] at hx
      have hxy := mem_dedupByNameAux t seen x hx
      rcases List.mem_cons.mp hy with heq | hmem
      · exfalso
        apply hxy.2
        rw [← hname, heq]
        exact hm
      · exact ih seen hpt x hx y hmem hname
    · rw [if_neg hm] at hx
      rcases List.mem_cons.mp hx with heq | hmem
      · subst heq
        rcases List.mem_cons.mp hy with heq2 | hmem2
        · exact Or.inl heq2.symm
        · exact Or.inr (hpa y hmem2)
      · have hnot := (mem_dedupByNameAux t (a.pipeline_name :: seen) x hmem).2
        rcases List.mem_cons.mp hy with heq2 | hmem2
        · exfalso
          apply hnot
          rw [← hname, heq2]
          simp
        · exact ih _ hpt x hmem y hmem2 hname

lemma dedupByNameAux_card :
    ∀ (l : List RankRow) (seen : List String),
      (dedupByNameAux seen l).length =
        ((l.map (fun r => r.pipeline_name)).toFinset \ seen.toFinset).card := by
  intro l
  induction l with
  | nil => intro seen; simp [dedupByNameAux]
  | cons a t ih =>
    intro seen
    simp only [dedupByNameAux, List.map_cons, List.toFinset_cons]
    by_cases hm : a.pipeline_name ∈ seen
    · rw [if_pos hm, ih seen, Finset.insert_sdiff_of_mem _ (List.mem_toFinset.mpr hm)]
    · rw [if_neg hm]
      simp only [List.length_cons, ih (a.pipeline_name :: seen)]
      rw [Finset.insert_sdiff_of_not_mem _ (fun hc => hm (List.mem_toFinset.mp hc))]
      rw [List.toFinset_cons, Finset.sdiff_insert]
      by_cases hv : a.pipeline_name ∈
          (t.map (fun r => r.pipeline_name)).toFinset \ seen.toFinset
      · rw [Finset.insert_eq_self.mpr hv]
        exact Finset.card_erase_add_one hv
      · rw [Finset.card_insert_of_not_mem hv, Finset.erase_eq_of_not_mem hv]

lemma dedupByName_card (l : List RankRow) :
    (dedupByName l).length = (l.map (fun r => r.pipeline_name)).toFinset.card := by
  simp [dedupByName, dedupByNameAux_card]

lemma fullRankings_names_perm (gib : Bool) (st : AutoMLState) :
    ((fullRankings gib st).map (fun r => r.pipeline_name)).Perm
      (st.results.map (fun r => r.pipeline_name)) := by
  have h := (List.perm_insertionSort (rowOrder gib) (st.results.map toRow)).map
    (fun r => r.pipeline_name)
  simpa [List.map_map, Function.comp_def, toRow] using h

lemma fullRankings_length (gib : Bool) (st : AutoMLState) :
    (fullRankings gib st).length = st.results.length := by
  simp [fullRankings]

lemma rankings_length_card (gib : Bool) (st : AutoMLState) :
    (rankings gib st).length = (st.results.map (fun r => r.pipeline_name)).toFinset.card := by
  rw [rankings, dedupByName_card]
  congr 1
  exact List.toFinset_eq_of_perm _ _ (fullRankings_names_perm gib st)

lemma rankings_length_le (gib : Bool) (st : AutoMLState) :
    (rankings gib st).length ≤ (fullRankings gib st).length :=
  dedupByNameAux_length_le (fullRankings gib st) []

lemma rankings_names_nodup (gib : Bool) (st : AutoMLState) :
    ((rankings gib st).map (fun r => r.pipeline_name)).Nodup :=
  names_nodup_dedupByNameAux (fullRankings gib st) []

lemma rankings_names_iff (gib : Bool) (st : AutoMLState) (n : String) :
    n ∈ (rankings gib st).map (fun r => r.pipeline_name) ↔
      n ∈ (fullRankings gib st).map (fun r => r.pipeline_name) := by
  rw [rankings, dedupByName, names_mem_dedupByNameAux]
  simp

lemma rankings_subset (gib : Bool) (st : AutoMLState) (x : RankRow)
    (hx : x ∈ rankings gib st) : x ∈ fullRankings gib st :=
  (mem_dedupByNameAux (fullRankings gib st) [] x hx).1

lemma fullRankings_sorted (gib : Bool) (st : AutoMLState) :
    (fullRankings gib st).Pairwise (rowOrder gib) :=
  List.sorted_insertionSort (rowOrder gib) (st.results.map toRow)

lemma rankings_best (gib : Bool) (st : AutoMLState) :
    ∀ x ∈ rankings gib st, ∀ y ∈ fullRankings gib st,
      y.pipeline_name = x.pipeline_name → x = y ∨ svalBE gib x.score y.score = true :=
  fun x hx y hy hname =>
    dedupByNameAux_best (rowOrder gib) (fullRankings gib st) []
      (fullRankings_sorted gib st) x hx y hy hname

lemma mem_fullRankings_iff (gib : Bool) (st : AutoMLState) (x : RankRow) :
    x ∈ fullRankings gib st ↔ x ∈ st.results.map toRow := by
  simp [fullRankings]

lemma addToRankings_no_search (cfg : Config) (oracle : Oracle) (b : Bool) (st : AutoMLState)
    (p : Pipeline) (rows : Nat) (h : st.has_searched = false) :
    addToRankings cfg oracle b st p rows =
      Except.error "Please run automl search before adding pipelines" := by
  simp [addToRankings, h]

lemma addToRankings_duplicate (cfg : Config) (oracle : Oracle) (b : Bool) (st : AutoMLState)
    (p : Pipeline) (rows : Nat) (h : st.has_searched = true) (hd : isDuplicate st p = true) :
    addToRankings cfg oracle b st p rows = Except.ok (st, none) := by
  simp [addToRankings, h, hd]

lemma addToRankings_insert (cfg : Config) (oracle : Oracle) (st : AutoMLState)
    (p : Pipeline) (rows : Nat) (h : st.has_searched = true) (hd : isDuplicate st p = false) :
    ∃ cvs, evaluatePipeline cfg oracle false p (makeSplitPlan rows) = Except.ok cvs ∧
      addToRankings cfg oracle false st p rows =
        Except.ok (recordResult st (mkResult oracle p st.results.length cvs),
          some st.results.length) := by
  obtain ⟨cvs, hcvs⟩ := evaluatePipeline_contained_ok cfg oracle p (makeSplitPlan rows)
  exact ⟨cvs, hcvs, by simp [addToRankings, h, hd, hcvs]⟩

lemma recordResult_names (st : AutoMLState) (res : PipelineResult) :
    (recordResult st res).results.map (fun r => r.pipeline_name) =
      st.results.map (fun r => r.pipeline_name) ++ [res.pipeline_name] := by
  simp [recordResult]

lemma rankings_length_after_record (gib : Bool) (st : AutoMLState) (res : PipelineResult) :
    (rankings gib (recordResult st res)).length =
      if res.pipeline_name ∈ st.results.map (fun r => r.pipeline_name)
      then (rankings gib st).length else (rankings gib st).length + 1 := by
  rw [rankings_length_card, rankings_length_card, recordResult_names]
  rw [List.toFinset_append]
  by_cases hm : res.pipeline_name ∈ st.results.map (fun r => r.pipeline_name)
  · rw [if_pos hm]
    congr 1
    rw [Finset.union_eq_left]
    intro x hx
    simp only [List.toFinset_cons, List.toFinset_nil, insert_emptyc_eq,
      Finset.mem_singleton] at hx
    subst hx
    exact List.mem_toFinset.mpr hm
  · rw [if_neg hm]
    have : (st.results.map (fun r => r.pipeline_name)).toFinset ∪
        [res.pipeline_name].toFinset =
        insert res.pipeline_name (st.results.map (fun r => r.pipeline_name)).toFinset := by
      simp [Finset.union_comm, Finset.insert_eq]
    rw [this, Finset.card_insert_of_not_mem (fun hc => hm (List.mem_toFinset.mp hc))]

lemma fullRankings_length_after_record (gib : Bool) (st : AutoMLState) (res : PipelineResult) :
    (fullRankings gib (recordResult st res)).length = (fullRankings gib st).length + 1 := by
  rw [fullRankings_length, fullRankings_length]
  simp [recordResult]

lemma decodeSVal_encode (v : SVal) (rest : List Tok) :
    decodeSVal (encodeSVal v ++ rest) = some (v, rest) := by
  cases v <;> rfl

lemma decodeOptQ_encode (v : Option ℚ) (rest : List Tok) :
    decodeOptQ (encodeOptQ v ++ rest) = some (v, rest) := by
  cases v <;> rfl

lemma decodeStrQ_encode (e : String × ℚ) (rest : List Tok) :
    decodeStrQ (encodeStrQ e ++ rest) = some (e, rest) := rfl

lemma decodeStrSVal_encode (e : String × SVal) (rest : List Tok) :
    decodeStrSVal (encodeStrSVal e ++ rest) = some (e, rest) := by
  obtain ⟨s, v⟩ := e
  simp [encodeStrSVal, decodeStrSVal, decodeSVal_encode]

lemma decodeNat_encode (n : Nat) (rest : List Tok) :
    decodeNat (encodeNat n ++ rest) = some (n, rest) := rfl

lemma decodeListAux_encode {α : Type} (dec : List Tok → Option (α × List Tok))
    (enc : α → List Tok)
    (hde : ∀ (x : α) (rest : List Tok), dec (enc x ++ rest) = some (x, rest)) :
    ∀ (xs : List α) (rest : List Tok),
      decodeListAux dec xs.length (encodeListAux enc xs ++ rest) = some (xs, rest) := by
  intro xs
  induction xs with
  | nil => intro rest; rfl
  | cons x t ih =>
    intro rest
    simp only [List.length_cons, encodeListAux, List.append_assoc, decodeListAux, hde, ih]

lemma decodeList_encode {α : Type} (dec : List Tok → Option (α × List Tok))
    (enc : α → List Tok)
    (hde : ∀ (x : α) (rest : List Tok), dec (enc x ++ rest) = some (x, rest))
    (xs : List α) (rest : List Tok) :
    decodeList dec (encodeList enc xs ++ rest) = some (xs, rest) := by
  simp only [encodeList, List.cons_append, decodeList]
  exact decodeListAux_encode dec enc hde xs rest

lemma decodeParamEntry_encode (e : String × List (String × ℚ)) (rest : List Tok) :
    decodeParamEntry (encodeParamEntry e ++ rest) = some (e, rest) := by
  obtain ⟨s, ps⟩ := e
  simp [encodeParamEntry, decodeParamEntry,
    decodeList_encode decodeStrQ encodeStrQ decodeStrQ_encode]

lemma decodeCVData_encode (cv : CVData) (rest : List Tok) :
    decodeCVData (encodeCVData cv ++ rest) = some (cv, rest) := by
  simp [encodeCVData, decodeCVData, List.append_assoc,
    decodeList_encode decodeStrSVal encodeStrSVal decodeStrSVal_encode,
    decodeSVal_encode, decodeOptQ_encode]

lemma decodeResult_encode (r : PipelineResult) (rest : List Tok) :
    decodeResult (encodeResult r ++ rest) = some (r, rest) := by
  simp [encodeResult, decodeResult, List.append_assoc,
    decodeList_encode decodeParamEntry encodeParamEntry decodeParamEntry_encode,
    decodeSVal_encode,
    decodeList_encode decodeCVData encodeCVData decodeCVData_encode]

lemma restore_persist (st : AutoMLState) : restore (persist st) = some st := by
  simp [persist, restore, List.append_assoc,
    decodeList_encode decodeResult encodeResult decodeResult_encode,
    decodeList_encode decodeNat encodeNat decodeNat_encode]



lemma search_results_eq (cfg : Config) (oracle : Oracle) (b : Bool) (cs : List Pipeline)
    (rows : Nat) (st : AutoMLState) :
    (search cfg oracle b cs rows st).1.results =
      (runLoop cfg oracle b (makeSplitPlan rows) cs st 0 []).1.results := by
  simp [search]

lemma search_order_eq (cfg : Config) (oracle : Oracle) (b : Bool) (cs : List Pipeline)
    (rows : Nat) (st : AutoMLState) :
    (search cfg oracle b cs rows st).1.search_order =
      (runLoop cfg oracle b (makeSplitPlan rows) cs st 0 []).1.search_order := by
  simp [search]

lemma search_exn_eq (cfg : Config) (oracle : Oracle) (b : Bool) (cs : List Pipeline)
    (rows : Nat) (st : AutoMLState) :
    (search cfg oracle b cs rows st).2 =
      (runLoop cfg oracle b (makeSplitPlan rows) cs st 0 []).2 := by
  simp [search]

/-- C1: under the contained error policy, when fitting raises for every
candidate, the run still completes, every evaluated candidate is recorded
with an id listed in the Search Order, and in its per-fold CV data every
objective score is not-a-number except the training and testing row
counts, which remain strictly positive integers. -/
theorem contained_fit_failure_records_nan_result
    (cfg : Config) (oracle : Oracle) (cs : List Pipeline) (rows : Nat)
    (hrows : 3 ≤ rows) (hcs : cs ≠ [])
    (hprim : cfg.primaryName ≠ "# Training" ∧ cfg.primaryName ≠ "# Testing")
    (hadd : ∀ o ∈ cfg.additionalObjectives, o ≠ "# Training" ∧ o ≠ "# Testing")
    (hfit : ∀ (p : Pipeline) (f : Fold), ∃ e, oracle.fitResult p f = Except.error e) :
    (search cfg oracle false cs rows emptyState).2 = none ∧
    (search cfg oracle false cs rows emptyState).1.results ≠ [] ∧
    ∀ r ∈ (search cfg oracle false cs rows emptyState).1.results,
      r.id ∈ (search cfg oracle false cs rows emptyState).1.search_order ∧
      ∀ cv ∈ r.cv_data, ∀ nm v, (nm, v) ∈ cv.all_objective_scores →
        ((nm = "# Training" ∨ nm = "# Testing") →
          ∃ k : Nat, 0 < k ∧ v = SVal.num (k : ℚ)) ∧
        (nm ≠ "# Training" → nm ≠ "# Testing" → v = SVal.nan) := by
  have hplanpos := makeSplitPlan_pos rows hrows
  have hev : ∀ p : Pipeline, evaluatePipeline cfg oracle false p (makeSplitPlan rows) =
      Except.ok ((makeSplitPlan rows).map (nanCVData cfg)) := by
    intro p
    refine evaluatePipeline_map_of_error cfg oracle p (makeSplitPlan rows) (fun f _ => ?_)
    obtain ⟨e, he⟩ := hfit p f
    exact ⟨e, evaluateFold_fit_error cfg oracle p f e he⟩
  refine ⟨?_, ?_, ?_⟩
  · rw [search_exn_eq]
    exact runLoop_contained_none cfg oracle (makeSplitPlan rows) cs emptyState 0 []
  · obtain ⟨c, rest, hcs2⟩ := List.exists_cons_of_ne_nil hcs
    subst hcs2
    have h1 := runLoop_first_recorded cfg oracle false (makeSplitPlan rows) c rest
      emptyState 0 [] rfl ⟨_, hev c⟩
    rw [search_results_eq]
    intro hnil
    rw [hnil] at h1
    simp at h1
  · intro r hr
    rw [search_results_eq] at hr
    constructor
    · rw [search_order_eq]
      exact runLoop_ids_in_order cfg oracle false (makeSplitPlan rows) cs emptyState 0 []
        (by simp [emptyState]) r hr
    · intro cv hcv nm v hmem
      rcases runLoop_results_mem cfg oracle false (makeSplitPlan rows) cs emptyState 0 [] r hr
        with h0 | ⟨c, _, cvs, hcvs, rid, hrr⟩
      · simp [emptyState] at h0
      · rw [hev c] at hcvs
        have hcvs2 : (makeSplitPlan rows).map (nanCVData cfg) = cvs := by
          injection hcvs
        subst hrr
        simp only [mkResult] at hcv
        rw [← hcvs2] at hcv
        obtain ⟨f, hf, hcveq⟩ := List.mem_map.mp hcv
        subst hcveq
        simp only [nanCVData] at hmem
        have hpos := hplanpos f hf
        constructor
        · intro hrow
          rcases List.mem_cons.mp hmem with hh | ht
          · exfalso
            have hnm : nm = cfg.primaryName := congrArg Prod.fst hh
            rcases hrow with h | h
            · exact hprim.1 (hnm ▸ h)
            · exact hprim.2 (hnm ▸ h)
          · rcases List.mem_append.mp ht with hmap | hrowm
            · exfalso
              obtain ⟨o, ho, hoe⟩ := List.mem_map.mp hmap
              have hnm : o = nm := congrArg Prod.fst hoe
              rcases hrow with h | h
              · exact (hadd o ho).1 (hnm.symm ▸ h)
              · exact (hadd o ho).2 (hnm.symm ▸ h)
            · simp only [rowCountEntries, List.mem_cons, List.mem_singleton,
                List.not_mem_nil, or_false] at hrowm
              rcases hrowm with hh | hh
              · have hv : v = SVal.num f.nTrain := congrArg Prod.snd hh
                exact ⟨f.nTrain, hpos.1, hv⟩
              · have hv : v = SVal.num f.nTest := congrArg Prod.snd hh
                exact ⟨f.nTest, hpos.2, hv⟩
        · intro hnt hns
          rcases List.mem_cons.mp hmem with hh | ht
          · exact congrArg Prod.snd hh
          · rcases List.mem_append.mp ht with hmap | hrowm
            · obtain ⟨o, _, hoe⟩ := List.mem_map.mp hmap
              exact (congrArg Prod.snd hoe).symm
            · exfalso
              simp only [rowCountEntries, List.mem_cons, List.mem_singleton,
                List.not_mem_nil, or_false] at hrowm
              rcases hrowm with hh | hh
              · exact hnt (congrArg Prod.fst hh)
              · exact hns (congrArg Prod.fst hh)

/-- Witness for C1 at a concrete binary run whose mocked fit always
raises. -/
theorem contained_fit_failure_records_nan_result_witness :
    (search binaryConfig failFitOracle false [baselinePipeline] 10 emptyState).2 = none ∧
    (search binaryConfig failFitOracle false [baselinePipeline] 10 emptyState).1.results ≠
      [] := by
  have h := contained_fit_failure_records_nan_result binaryConfig failFitOracle
    [baselinePipeline] 10 (by norm_num) (by simp) (by simp [binaryConfig])
    (by intro o ho; fin_cases ho <;> simp)
    (fun p f => ⟨"all your model are belong to us", rfl⟩)
  exact ⟨h.1, h.2.1⟩

/-- C2: under the strict error policy, an exception raised while fitting
(or while scoring the primary objective of) the first candidate propagates
out of the run unchanged, and nothing is recorded for that candidate: the
Results Store and Search Order stay empty. -/
theorem strict_failure_propagates_and_unrecorded
    (cfg : Config) (oracle : Oracle) (c : Pipeline) (rest : List Pipeline)
    (rows : Nat) (e : String)
    (hfail : (∀ f, oracle.fitResult c f = Except.error e) ∨
      ((∀ f, oracle.fitResult c f = Except.ok ()) ∧
        ∀ f, oracle.primaryScore c f = Except.error e)) :
    search cfg oracle true (c :: rest) rows emptyState = (emptyState, some e) := by
  obtain ⟨f0, fs, hplan⟩ := makeSplitPlan_cons rows
  have hfold : evaluateFold cfg oracle c f0 = Except.error e := by
    rcases hfail with h | ⟨h1, h2⟩
    · exact evaluateFold_fit_error cfg oracle c f0 e (h f0)
    · exact evaluateFold_score_error cfg oracle c f0 e (h1 f0) (h2 f0)
  have hev : evaluatePipeline cfg oracle true c (makeSplitPlan rows) = Except.error e := by
    rw [hplan]
    exact evaluatePipeline_error_head cfg oracle c f0 fs e hfold
  have hstep := runLoop_cons_error cfg oracle true (makeSplitPlan rows) c rest
    emptyState 0 [] e (shouldContinue_zero cfg 0 []) hev
  simp only [search, hstep]
  rfl

/-- Witness for C2: the mocked always-raising fit of
test_pipeline_fit_raises propagates its message out of a strict run and
records nothing. -/
theorem strict_failure_propagates_and_unrecorded_witness :
    search binaryConfig failFitOracle true [baselinePipeline] 10 emptyState =
      (emptyState, some "all your model are belong to us") :=
  strict_failure_propagates_and_unrecorded binaryConfig failFitOracle baselinePipeline []
    10 "all your model are belong to us" (Or.inl fun _ => rfl)

/-- C3 counterexample: in a binary run with threshold optimization
disabled, the recorded binary-decision threshold of every fold is the
number 1/2, not null as the claim requires when optimization is
disabled. -/
theorem threshold_recorded_despite_disabled_optimization :
    binaryConfig.problemType = ProblemType.binary ∧
    binaryConfig.optimizeThresholds = false ∧
    (search binaryConfig okOracle false [baselinePipeline] 10 emptyState).1.results.map
      (fun r => r.cv_data.map (fun cv => cv.binary_classification_threshold)) =
      [[some (1/2), some (1/2), some (1/2)]] ∧
    ∀ r ∈ (search binaryConfig okOracle false [baselinePipeline] 10 emptyState).1.results,
      ∀ cv ∈ r.cv_data, cv.binary_classification_threshold ≠ none := by
  refine ⟨rfl, rfl, ?_, ?_⟩ <;>
    norm_num +decide [search, runLoop, shouldContinue, stopReached, countBudgetReached,
      timeBudgetReached, plateauReached, evaluatePipeline, evaluateFold, okOracle,
      thresholdFor, scoreAdditional, rowCountEntries, mkResult, recordResult,
      aggregateScore, sumNums, highVarianceCV, makeSplitPlan, largeDataThreshold,
      kfold3, holdoutSplit, emptyState, binaryConfig, baselinePipeline, List.range_succ]

/-- C3 (amended): for every result recorded by a run whose fits and
primary scorings all succeed, each fold's binary-decision threshold is
null exactly when the problem category is not binary; when the category is
binary it is a number, the default 1/2 whenever optimization is
disabled. -/
theorem threshold_null_iff_not_binary
    (cfg : Config) (oracle : Oracle) (b : Bool) (cs : List Pipeline) (rows : Nat)
    (hfit : ∀ (p : Pipeline) (f : Fold), oracle.fitResult p f = Except.ok ())
    (hscore : ∀ (p : Pipeline) (f : Fold), ∃ q, oracle.primaryScore p f = Except.ok q) :
    ∀ r ∈ (search cfg oracle b cs rows emptyState).1.results,
      ∀ cv ∈ r.cv_data,
        (cv.binary_classification_threshold = none ↔
          cfg.problemType ≠ ProblemType.binary) ∧
        (cfg.problemType = ProblemType.binary → cfg.optimizeThresholds = false →
          cv.binary_classification_threshold = some (1/2)) := by
  intro r hr cv hcv
  choose qf hq using hscore
  have hfold : ∀ (p : Pipeline) (f : Fold), evaluateFold cfg oracle p f =
      Except.ok (okCVData cfg oracle p f (qf p f)) := by
    intro p f
    exact evaluateFold_ok cfg oracle p f (qf p f) (hfit p f) (hq p f)
  rw [search_results_eq] at hr
  rcases runLoop_results_mem cfg oracle b (makeSplitPlan rows) cs emptyState 0 [] r hr
    with h0 | ⟨c, _, cvs, hcvs, rid, hrr⟩
  · simp [emptyState] at h0
  · have hev := evaluatePipeline_map_of_ok cfg oracle b c _ (makeSplitPlan rows)
      (fun f _ => hfold c f)
    rw [hev] at hcvs
    have hcvs2 : (makeSplitPlan rows).map (fun f => okCVData cfg oracle c f (qf c f)) = cvs := by
      injection hcvs
    subst hrr
    simp only [mkResult] at hcv
    rw [← hcvs2] at hcv
    obtain ⟨f, _, hcveq⟩ := List.mem_map.mp hcv
    subst hcveq
    constructor
    · simp only [okCVData, thresholdFor]
      by_cases hb : cfg.problemType = ProblemType.binary <;> simp [hb]
    · intro hb hopt
      simp [okCVData, thresholdFor, hb, hopt]

/-- Witness for the amended C3 at a concrete successful binary run. -/
theorem threshold_null_iff_not_binary_witness :
    ∃ r cv,
      r ∈ (search binaryConfig okOracle false [baselinePipeline] 10 emptyState).1.results ∧
      cv ∈ r.cv_data ∧
      (cv.binary_classification_threshold = none ↔
        binaryConfig.problemType ≠ ProblemType.binary) ∧
      (binaryConfig.problemType = ProblemType.binary →
        binaryConfig.optimizeThresholds = false →
        cv.binary_classification_threshold = some (1/2)) := by
  have h := threshold_null_iff_not_binary binaryConfig okOracle false [baselinePipeline] 10
    (fun _ _ => rfl) (fun _ _ => ⟨1, rfl⟩)
  obtain ⟨f0, fs, hplan⟩ := makeSplitPlan_cons 10
  have hr : (search binaryConfig okOracle false [baselinePipeline] 10 emptyState).1.results =
      [mkResult okOracle baselinePipeline 0
        ((makeSplitPlan 10).map
          (fun f => okCVData binaryConfig okOracle baselinePipeline f 1))] := rfl
  have hrm : mkResult okOracle baselinePipeline 0
      ((makeSplitPlan 10).map
        (fun f => okCVData binaryConfig okOracle baselinePipeline f 1)) ∈
      (search binaryConfig okOracle false [baselinePipeline] 10 emptyState).1.results := by
    rw [hr]
    exact List.mem_singleton.mpr rfl
  have hcvm : okCVData binaryConfig okOracle baselinePipeline f0 1 ∈
      (mkResult okOracle baselinePipeline 0
        ((makeSplitPlan 10).map
          (fun f => okCVData binaryConfig okOracle baselinePipeline f 1))).cv_data := by
    show okCVData binaryConfig okOracle baselinePipeline f0 1 ∈
      (makeSplitPlan 10).map (fun f => okCVData binaryConfig okOracle baselinePipeline f 1)
    exact List.mem_map.mpr ⟨f0, by rw [hplan]; exact List.mem_cons_self f0 fs, rfl⟩
  exact ⟨_, _, hrm, hcvm, (h _ hrm _ hcvm).1, (h _ hrm _ hcvm).2⟩

/-- C4: when scoring one additional (non-primary) objective raises on
every fold while fits and primary scorings succeed, the run is not
aborted under either error policy, every candidate is still recorded, and
in each fold only that objective's value is not-a-number while every other
recorded objective value is a number. -/
theorem additional_objective_failure_contained
    (cfg : Config) (oracle : Oracle) (b : Bool) (cs : List Pipeline) (rows : Nat)
    (oBad : String) (e : String)
    (hmem : oBad ∈ cfg.additionalObjectives) (hcs : cs ≠ [])
    (hfit : ∀ (p : Pipeline) (f : Fold), oracle.fitResult p f = Except.ok ())
    (hprim : ∀ (p : Pipeline) (f : Fold), ∃ q, oracle.primaryScore p f = Except.ok q)
    (hbad : ∀ (p : Pipeline) (f : Fold), oracle.addScore p f oBad = Except.error e)
    (hoth : ∀ o ∈ cfg.additionalObjectives, o ≠ oBad →
      ∀ (p : Pipeline) (f : Fold), ∃ q, oracle.addScore p f o = Except.ok q) :
    (search cfg oracle b cs rows emptyState).2 = none ∧
    (search cfg oracle b cs rows emptyState).1.results ≠ [] ∧
    ∀ r ∈ (search cfg oracle b cs rows emptyState).1.results,
      ∀ cv ∈ r.cv_data,
        (oBad, SVal.nan) ∈ cv.all_objective_scores ∧
        ∀ nm v, (nm, v) ∈ cv.all_objective_scores → nm ≠ oBad →
          ∃ q, v = SVal.num q := by
  choose qf hq using hprim
  have hfold : ∀ (p : Pipeline) (f : Fold), evaluateFold cfg oracle p f =
      Except.ok (okCVData cfg oracle p f (qf p f)) :=
    fun p f => evaluateFold_ok cfg oracle p f (qf p f) (hfit p f) (hq p f)
  have hev : ∀ p : Pipeline, evaluatePipeline cfg oracle b p (makeSplitPlan rows) =
      Except.ok ((makeSplitPlan rows).map (fun f => okCVData cfg oracle p f (qf p f))) :=
    fun p => evaluatePipeline_map_of_ok cfg oracle b p _ (makeSplitPlan rows)
      (fun f _ => hfold p f)
  refine ⟨?_, ?_, ?_⟩
  · rw [search_exn_eq]
    exact runLoop_ok_none cfg oracle b (makeSplitPlan rows) cs emptyState 0 []
      (fun c _ => ⟨_, hev c⟩)
  · obtain ⟨c, rest, hcs2⟩ := List.exists_cons_of_ne_nil hcs
    subst hcs2
    have h1 := runLoop_first_recorded cfg oracle b (makeSplitPlan rows) c rest
      emptyState 0 [] rfl ⟨_, hev c⟩
    rw [search_results_eq]
    intro hnil
    rw [hnil] at h1
    simp at h1
  · intro r hr cv hcv
    rw [search_results_eq] at hr
    rcases runLoop_results_mem cfg oracle b (makeSplitPlan rows) cs emptyState 0 [] r hr
      with h0 | ⟨c, _, cvs, hcvs, rid, hrr⟩
    · simp [emptyState] at h0
    · rw [hev c] at hcvs
      have hcvs2 : (makeSplitPlan rows).map (fun f => okCVData cfg oracle c f (qf c f)) =
          cvs := by injection hcvs
      subst hrr
      simp only [mkResult] at hcv
      rw [← hcvs2] at hcv
      obtain ⟨f, _, hcveq⟩ := List.mem_map.mp hcv
      subst hcveq
      constructor
      · simp only [okCVData, List.mem_cons, List.mem_append]
        refine Or.inl (Or.inr (List.mem_map.mpr ⟨oBad, hmem, ?_⟩))
        simp [scoreAdditional, hbad c f]
      · intro nm v hm hne
        simp only [okCVData] at hm
        rcases List.mem_cons.mp hm with hh | ht
        · exact ⟨qf c f, congrArg Prod.snd hh⟩
        · rcases List.mem_append.mp ht with hmap | hrowm
          · obtain ⟨o, ho, hoe⟩ := List.mem_map.mp hmap
            have hnm : o = nm := congrArg Prod.fst hoe
            obtain ⟨q2, hq2⟩ := hoth o ho (fun hcon => hne (hnm ▸ hcon)) c f
            refine ⟨q2, ?_⟩
            have hv : scoreAdditional oracle c f o = v := congrArg Prod.snd hoe
            rw [← hv]
            simp [scoreAdditional, hq2]
          · simp only [rowCountEntries, List.mem_cons, List.mem_singleton,
              List.not_mem_nil, or_false] at hrowm
            rcases hrowm with hh | hh
            · exact ⟨f.nTrain, congrArg Prod.snd hh⟩
            · exact ⟨f.nTest, congrArg Prod.snd hh⟩

/-- Witness for C4: the mocked AUC failure of test_objective_score_raises
under the strict policy still completes and records the candidate. -/
theorem additional_objective_failure_contained_witness :
    (search binaryConfig failAUCOracle true [baselinePipeline] 10 emptyState).2 = none ∧
    (search binaryConfig failAUCOracle true [baselinePipeline] 10 emptyState).1.results ≠
      [] := by
  have h := additional_objective_failure_contained binaryConfig failAUCOracle true
    [baselinePipeline] 10 "AUC" "all your model are belong to us"
    (by simp [binaryConfig]) (by simp)
    (fun _ _ => rfl) (fun _ _ => ⟨1, rfl⟩)
    (fun _ _ => rfl)
    (by
      intro o ho hne p f
      refine ⟨1, ?_⟩
      simp only [failAUCOracle]
      rw [if_neg hne])
  exact ⟨h.1, h.2.1⟩

/-- C5: the Stopping Controller never halts before one candidate has been
evaluated, so a run with any configured time budget, zero included, still
records at least one pipeline result. -/
theorem zero_time_budget_still_evaluates_one
    (cfg : Config) (oracle : Oracle) (cs : List Pipeline) (rows : Nat) (t : ℚ)
    (_ht : cfg.maxTime = some t) (hcs : cs ≠ []) :
    (∀ (elapsed : ℚ) (scores : List SVal), shouldContinue cfg elapsed 0 scores = true) ∧
    1 ≤ (search cfg oracle false cs rows emptyState).1.results.length := by
  refine ⟨fun elapsed scores => shouldContinue_zero cfg elapsed scores, ?_⟩
  obtain ⟨c, rest, hcs2⟩ := List.exists_cons_of_ne_nil hcs
  subst hcs2
  rw [search_results_eq]
  exact runLoop_first_recorded cfg oracle false (makeSplitPlan rows) c rest
    emptyState 0 [] rfl (evaluatePipeline_contained_ok cfg oracle c (makeSplitPlan rows))

/-- Witness for C5 at a zero time budget. -/
theorem zero_time_budget_still_evaluates_one_witness :
    zeroTimeConfig.maxTime = some 0 ∧
    1 ≤ (search zeroTimeConfig okOracle false [baselinePipeline] 10 emptyState).1.results.length :=
  ⟨rfl, (zero_time_budget_still_evaluates_one zeroTimeConfig okOracle [baselinePipeline]
    10 0 rfl (by simp)).2⟩

/-- C6: a row count above the large-dataset threshold forces a split plan
with exactly one fold, for every problem category, and every recorded
Evaluation Result then carries exactly one fold of CV data. -/
theorem large_dataset_forces_single_fold
    (cfg : Config) (oracle : Oracle) (b : Bool) (cs : List Pipeline) (rows : Nat)
    (hrows : largeDataThreshold < rows) :
    (makeSplitPlan rows).length = 1 ∧
    ∀ r ∈ (search cfg oracle b cs rows emptyState).1.results, r.cv_data.length = 1 := by
  have hlen : (makeSplitPlan rows).length = 1 := by
    rw [makeSplitPlan_large rows hrows]
    rfl
  refine ⟨hlen, ?_⟩
  intro r hr
  rw [search_results_eq] at hr
  rcases runLoop_results_mem cfg oracle b (makeSplitPlan rows) cs emptyState 0 [] r hr
    with h0 | ⟨c, _, cvs, hcvs, rid, hrr⟩
  · simp [emptyState] at h0
  · subst hrr
    simp only [mkResult]
    rw [evaluatePipeline_ok_length cfg oracle b c (makeSplitPlan rows) cvs hcvs]
    exact hlen

/-- Witness for C6 at 100001 rows, just above the threshold. -/
theorem large_dataset_forces_single_fold_witness :
    (makeSplitPlan 100001).length = 1 ∧
    ∀ r ∈ (search binaryConfig okOracle false [baselinePipeline] 100001
      emptyState).1.results, r.cv_data.length = 1 :=
  large_dataset_forces_single_fold binaryConfig okOracle false [baselinePipeline] 100001
    (by norm_num [largeDataThreshold])

/-- C7: a run over 1 baseline plus 2 same-class variants yields 3 rows in
full_rankings and 2 in rankings; in general rankings never has more rows
than full_rankings, has exactly one row per distinct pipeline class name,
and each kept row scores at least as well as every row of its name. -/
theorem rankings_one_row_per_name_and_counts :
    ((fullRankings false (search rankingsConfig okOracle false
        [baselinePipeline, rfPipelineA, rfPipelineB] 10 emptyState).1).length = 3 ∧
      (rankings false (search rankingsConfig okOracle false
        [baselinePipeline, rfPipelineA, rfPipelineB] 10 emptyState).1).length = 2) ∧
    ∀ (g : Bool) (st : AutoMLState),
      (rankings g st).length ≤ (fullRankings g st).length ∧
      ((rankings g st).map (fun r => r.pipeline_name)).Nodup ∧
      (∀ n : String, n ∈ (rankings g st).map (fun r => r.pipeline_name) ↔
        n ∈ (fullRankings g st).map (fun r => r.pipeline_name)) ∧
      ∀ x ∈ rankings g st, ∀ y ∈ fullRankings g st,
        y.pipeline_name = x.pipeline_name → x = y ∨ svalBE g x.score y.score = true := by
  constructor
  · constructor <;>
      norm_num +decide [search, runLoop, shouldContinue, stopReached, countBudgetReached,
        timeBudgetReached, plateauReached, evaluatePipeline, evaluateFold, okOracle,
        thresholdFor, scoreAdditional, rowCountEntries, mkResult, recordResult,
        aggregateScore, sumNums, highVarianceCV, makeSplitPlan, largeDataThreshold,
        kfold3, holdoutSplit, fullRankings, rankings, dedupByName, dedupByNameAux,
        toRow, rowOrder, svalBE, List.insertionSort, List.orderedInsert, emptyState,
        binaryConfig, rankingsConfig, baselinePipeline, rfPipelineA, rfPipelineB,
        List.range_succ]
  · intro g st
    exact ⟨rankings_length_le g st, rankings_names_nodup g st,
      fun n => rankings_names_iff g st n, rankings_best g st⟩

/-- C8: persisting the orchestrator state and restoring it yields a state
with identical search order, identical pipeline results field-for-field,
identical rankings views, and identical pipelines retrievable through
get_pipeline. -/
theorem persist_restore_round_trip (st : AutoMLState) :
    ∃ st2, restore (persist st) = some st2 ∧
      st2.search_order = st.search_order ∧
      st2.results = st.results ∧
      (∀ g : Bool, fullRankings g st2 = fullRankings g st ∧
        rankings g st2 = rankings g st) ∧
      ∀ rid : Nat, getPipeline st2 rid = getPipeline st rid :=
  ⟨st, restore_persist st, rfl, rfl, fun _ => ⟨rfl, rfl⟩, fun _ => rfl⟩

/-- C9 counterexample: adding a pipeline of the same class with a distinct
hyperparameter set does insert (a new id is returned and full_rankings
grows by one), but the deduplicated rankings cardinality stays 1, not 2 as
the claim requires. -/
theorem distinct_params_same_name_insertion_keeps_rankings_size :
    isDuplicate searchedState dummyPipelineB = false ∧
    (addToRankings binaryConfig okOracle false searchedState dummyPipelineB 10).map
      (fun out => (out.2, (rankings false out.1).length,
        (fullRankings false out.1).length)) = Except.ok (some 1, 1, 2) ∧
    (rankings false searchedState).length = 1 ∧
    (fullRankings false searchedState).length = 1 := by
  refine ⟨by decide, ?_, ?_, ?_⟩ <;>
    norm_num +decide [addToRankings, isDuplicate, Except.map, evaluatePipeline,
      evaluateFold, okOracle, thresholdFor, scoreAdditional, rowCountEntries, mkResult,
      recordResult, aggregateScore, sumNums, highVarianceCV, makeSplitPlan,
      largeDataThreshold, kfold3, holdoutSplit, fullRankings, rankings, dedupByName,
      dedupByNameAux, toRow, rowOrder, svalBE, List.insertionSort, List.orderedInsert,
      binaryConfig, searchedState, dummyResult, dummyPipelineB, List.range_succ,
      okCVData]

/-- C9 (amended): add_result fails with the run-required condition before
any run; with identical class and hyperparameters it performs no insertion
and returns no id; with a distinct (class, hyperparameters) pair it
inserts under a fresh id, full rankings always grows by one, and the
deduplicated rankings grow by one exactly when the class name was not
already ranked. -/
theorem add_result_requires_run_dedups_and_grows_store :
    (∀ (cfg : Config) (oracle : Oracle) (b : Bool) (st : AutoMLState) (p : Pipeline)
      (rows : Nat), st.has_searched = false →
      addToRankings cfg oracle b st p rows =
        Except.error "Please run automl search before adding pipelines") ∧
    (∀ (cfg : Config) (oracle : Oracle) (b : Bool) (st : AutoMLState) (p : Pipeline)
      (rows : Nat), st.has_searched = true → isDuplicate st p = true →
      addToRankings cfg oracle b st p rows = Except.ok (st, none)) ∧
    ∀ (cfg : Config) (oracle : Oracle) (st : AutoMLState) (p : Pipeline)
      (rows : Nat) (g : Bool), st.has_searched = true → isDuplicate st p = false →
      ∃ st2, addToRankings cfg oracle false st p rows =
          Except.ok (st2, some st.results.length) ∧
        (fullRankings g st2).length = (fullRankings g st).length + 1 ∧
        (rankings g st2).length =
          (if p.className ∈ st.results.map (fun r => r.pipeline_name)
            then (rankings g st).length else (rankings g st).length + 1) := by
  refine ⟨fun cfg oracle b st p rows h => addToRankings_no_search cfg oracle b st p rows h,
    fun cfg oracle b st p rows h hd => addToRankings_duplicate cfg oracle b st p rows h hd,
    ?_⟩
  intro cfg oracle st p rows g h hd
  obtain ⟨cvs, hcvs, heq⟩ := addToRankings_insert cfg oracle st p rows h hd
  refine ⟨_, heq, fullRankings_length_after_record g st _, ?_⟩
  rw [rankings_length_after_record g st (mkResult oracle p st.results.length cvs)]
  rfl

/-- Witness for the amended C9: the three branches at concrete inputs. -/
theorem add_result_requires_run_dedups_and_grows_store_witness :
    addToRankings binaryConfig okOracle true emptyState dummyPipelineB 10 =
      Except.error "Please run automl search before adding pipelines" ∧
    addToRankings binaryConfig okOracle true searchedState dummyPipelineA 10 =
      Except.ok (searchedState, none) ∧
    ∃ st2, addToRankings binaryConfig okOracle false searchedState coolPipeline 10 =
        Except.ok (st2, some 1) ∧
      (fullRankings false st2).length = (fullRankings false searchedState).length + 1 ∧
      (rankings false st2).length = (rankings false searchedState).length + 1 := by
  have h := add_result_requires_run_dedups_and_grows_store
  refine ⟨h.1 binaryConfig okOracle true emptyState dummyPipelineB 10 rfl,
    h.2.1 binaryConfig okOracle true searchedState dummyPipelineA 10 rfl (by decide), ?_⟩
  obtain ⟨st2, heq, hfull, hrank⟩ :=
    h.2.2 binaryConfig okOracle searchedState coolPipeline 10 false rfl (by decide)
  refine ⟨st2, heq, hfull, ?_⟩
  rw [hrank, if_neg (by decide)]

/-- C10: the deduplication key of add_result includes the pipeline class:
a pipeline of a different class name with hyperparameters identical to a
recorded entry is inserted as a new entry, the old entries survive, and
both class names appear in the deduplicated rankings, the new one with its
own id and parameters. -/
theorem different_class_same_params_adds_new_entry
    (cfg : Config) (oracle : Oracle) (st : AutoMLState) (p : Pipeline) (rows : Nat)
    (g : Bool) (hs : st.has_searched = true)
    (hname : ∀ r ∈ st.results, r.pipeline_name ≠ p.className) :
    ∃ st2, addToRankings cfg oracle false st p rows =
        Except.ok (st2, some st.results.length) ∧
      st2.results.length = st.results.length + 1 ∧
      (∃ r2 ∈ st2.results, r2.pipeline_name = p.className ∧
        r2.parameters = p.parameters) ∧
      (∀ r ∈ st.results, r ∈ st2.results) ∧
      (∃ row ∈ rankings g st2, row.pipeline_name = p.className ∧
        row.id = st.results.length ∧ row.parameters = p.parameters) ∧
      ∀ r ∈ st.results, r.pipeline_name ∈ (rankings g st2).map (fun x => x.pipeline_name) := by
  have hd : isDuplicate st p = false := by
    rw [isDuplicate, List.any_eq_false]
    intro r hr
    simp only [decide_eq_true_eq, not_and]
    exact fun h1 _ => hname r hr h1
  obtain ⟨cvs, hcvs, heq⟩ := addToRankings_insert cfg oracle st p rows hs hd
  refine ⟨recordResult st (mkResult oracle p st.results.length cvs), heq,
    by simp [recordResult], ?_, ?_, ?_, ?_⟩
  · exact ⟨mkResult oracle p st.results.length cvs, by simp [recordResult], rfl, rfl⟩
  · intro r hr
    simp [recordResult, hr]
  · have hmemname : p.className ∈
        (rankings g (recordResult st (mkResult oracle p st.results.length cvs))).map
          (fun x => x.pipeline_name) := by
      rw [rankings_names_iff, (fullRankings_names_perm g _).mem_iff, recordResult_names]
      simp [mkResult]
    obtain ⟨row, hrow, hrowname⟩ := List.mem_map.mp hmemname
    have hrowfull := rankings_subset g _ row hrow
    rw [mem_fullRankings_iff] at hrowfull
    obtain ⟨r2, hr2, hrtow⟩ := List.mem_map.mp hrowfull
    have hr2mem : r2 ∈ st.results ++ [mkResult oracle p st.results.length cvs] := by
      simpa [recordResult] using hr2
    rcases List.mem_append.mp hr2mem with hold | hnew
    · exfalso
      apply hname r2 hold
      have : (toRow r2).pipeline_name = p.className := by rw [hrtow]; exact hrowname
      exact this
    · have hr2eq : r2 = mkResult oracle p st.results.length cvs := by simpa using hnew
      subst hr2eq
      refine ⟨row, hrow, hrowname, ?_, ?_⟩
      · rw [← hrtow]; rfl
      · rw [← hrtow]; rfl
  · intro r hr
    rw [rankings_names_iff, (fullRankings_names_perm g _).mem_iff, recordResult_names]
    exact List.mem_append_left _ (List.mem_map.mpr ⟨r, hr, rfl⟩)

/-- Witness for C10: adding a fresh-named pipeline with the hyperparameters
of the recorded dummy result, as test_add_to_rankings_trained does. -/
theorem different_class_same_params_adds_new_entry_witness :
    ∃ st2, addToRankings binaryConfig okOracle false searchedState coolPipeline 10 =
        Except.ok (st2, some 1) ∧
      st2.results.length = 2 ∧
      (∃ r2 ∈ st2.results, r2.pipeline_name = coolPipeline.className ∧
        r2.parameters = coolPipeline.parameters) ∧
      (∀ r ∈ searchedState.results, r ∈ st2.results) ∧
      (∃ row ∈ rankings false st2, row.pipeline_name = coolPipeline.className ∧
        row.id = 1 ∧ row.parameters = coolPipeline.parameters) ∧
      ∀ r ∈ searchedState.results,
        r.pipeline_name ∈ (rankings false st2).map (fun x => x.pipeline_name) :=
  different_class_same_params_adds_new_entry binaryConfig okOracle searchedState
    coolPipeline 10 false rfl (by decide)
